import Mathlib

/-!
Shallow embedding of the appforge-api data core:
the schema validator (src/middleware/validate.ts), the collection/item
store with its access control (src/services/data.service.ts), the auth
middleware (src/middleware/auth.ts) and the token-bucket rate limiter
(src/whatsapp-bot.ts), together with theorems settling the frozen claims.
-/

namespace AppForge

/-- JSON-like runtime values, as handled by the JS code. -/
inductive Val where
  | vnull
  | vstr (s : String)
  | vnum (n : Int)
  | vbool (b : Bool)
  | varr (xs : List Val)
  | vobj (kvs : List (String × Val))

/-- An item payload: a JS object, modelled as an association list. -/
abbrev Data := List (String × Val)

/-- JS object property lookup (absent key = undefined = none). -/
def getField (data : Data) (k : String) : Option Val :=
  (data.find? (fun kv => kv.1 == k)).map (fun kv => kv.2)

/-- JS truthiness of a value (used by resolveRelations). -/
def valTruthy : Option Val → Bool
  | none => false
  | some .vnull => false
  | some (.vstr s) => s != ""
  | some (.vnum n) => n != 0
  | some (.vbool b) => b
  | some (.varr _) => true
  | some (.vobj _) => true

/-- The check `value === undefined or null or empty string` from the
required-field branch of validateDataAgainstSchema. -/
def isMissingVal : Val → Bool
  | .vnull => true
  | .vstr s => s == ""
  | _ => false

/-- The check `value === undefined or null` that skips type checks. -/
def isNullVal : Val → Bool
  | .vnull => true
  | _ => false

/-- Field types of the collection schema (fieldDefSchema in validate.ts). -/
inductive FieldType where
  | text | number | boolean | date | json | email | url | enum
deriving DecidableEq

structure Relation where
  collection : String
  field : String
deriving DecidableEq

/-- One field definition of a collection schema (fieldDefSchema). -/
structure FieldDef where
  name : String
  type : FieldType
  required : Bool
  min : Option Int
  max : Option Int
  minLength : Option Int
  maxLength : Option Int
  enum_values : Option (List String)
  relation : Option Relation

/-- Environment abstracting the external predicates the validator calls:
Date.parse succeeding, and the zod email/url shape checks. -/
structure JsEnv where
  dateOk : String → Bool
  emailOk : String → Bool
  urlOk : String → Bool

/-- The per-type checks of validateDataAgainstSchema (the switch on
field.type), producing the error messages pushed for one present,
non-null value. Mirrors validate.ts lines 187-220, including the JS
truthiness guards `field.minLength and` / `field.maxLength and`. -/
def typeErrors (env : JsEnv) (f : FieldDef) (v : Val) : List String :=
  match f.type with
  | .text =>
    match v with
    | .vstr s =>
      (match f.minLength with
       | some m => if m != 0 && (s.length : Int) < m then
           ["Field " ++ f.name ++ " must be at least " ++ toString m ++ " characters"] else []
       | none => []) ++
      (match f.maxLength with
       | some m => if m != 0 && (s.length : Int) > m then
           ["Field " ++ f.name ++ " must be at most " ++ toString m ++ " characters"] else []
       | none => [])
    | _ => ["Field " ++ f.name ++ " must be text"]
  | .number =>
    match v with
    | .vnum n =>
      (match f.min with
       | some m => if n < m then ["Field " ++ f.name ++ " must be at least " ++ toString m] else []
       | none => []) ++
      (match f.max with
       | some m => if n > m then ["Field " ++ f.name ++ " must be at most " ++ toString m] else []
       | none => [])
    | _ => ["Field " ++ f.name ++ " must be a number"]
  | .boolean =>
    match v with
    | .vbool _ => []
    | _ => ["Field " ++ f.name ++ " must be true/false"]
  | .date =>
    match v with
    | .vstr s => if env.dateOk s then [] else ["Field " ++ f.name ++ " must be a valid date"]
    | _ => ["Field " ++ f.name ++ " must be a valid date"]
  | .email =>
    match v with
    | .vstr s => if env.emailOk s then [] else ["Field " ++ f.name ++ " must be a valid email"]
    | _ => ["Field " ++ f.name ++ " must be a valid email"]
  | .url =>
    match v with
    | .vstr s => if env.urlOk s then [] else ["Field " ++ f.name ++ " must be a valid URL"]
    | _ => ["Field " ++ f.name ++ " must be a valid URL"]
  | .enum =>
    match f.enum_values with
    | some evs =>
      if (match v with | .vstr s => evs.contains s | _ => false) then []
      else ["Field " ++ f.name ++ " must be one of the enum values"]
    | none => []
  | .json => []

/-- Errors contributed by one field definition: the required check (with
its early continue), the undefined/null skip, then the type checks.
Mirrors the body of the for-loop of validateDataAgainstSchema. -/
def fieldErrors (env : JsEnv) (data : Data) (f : FieldDef) : List String :=
  match getField data f.name with
  | none => if f.required then ["Field " ++ f.name ++ " is required"] else []
  | some v =>
    if f.required && isMissingVal v then ["Field " ++ f.name ++ " is required"]
    else if isNullVal v then []
    else typeErrors env f v

/-- validateDataAgainstSchema (validate.ts lines 172-224): collects the
errors of every schema field, in order. -/
def validateDataAgainstSchema (env : JsEnv) (data : Data) (schema : List FieldDef) : List String :=
  (schema.map (fieldErrors env data)).flatten

/-- Modelled from the spec: the constraint satisfaction predicate of
section 4.3 / testable property 1 — a present, non-null value matches its
type, range, length and enum constraints. The flag zeroLenUnset selects
whether a minLength/maxLength bound equal to 0 counts as a constraint
(false: the claim as written, every stated bound applies) or is treated
as unset (true: the amended reading matching JS truthiness). -/
def specTypeOk (zeroLenUnset : Bool) (env : JsEnv) (f : FieldDef) (v : Val) : Bool :=
  match f.type with
  | .text =>
    match v with
    | .vstr s =>
      (match f.minLength with
       | some m => if zeroLenUnset && m == 0 then true else (m : Int) ≤ (s.length : Int)
       | none => true) &&
      (match f.maxLength with
       | some m => if zeroLenUnset && m == 0 then true else (s.length : Int) ≤ m
       | none => true)
    | _ => false
  | .number =>
    match v with
    | .vnum n =>
      (match f.min with | some m => m ≤ n | none => true) &&
      (match f.max with | some m => n ≤ m | none => true)
    | _ => false
  | .boolean => match v with | .vbool _ => true | _ => false
  | .date => match v with | .vstr s => env.dateOk s | _ => false
  | .email => match v with | .vstr s => env.emailOk s | _ => false
  | .url => match v with | .vstr s => env.urlOk s | _ => false
  | .enum =>
    match f.enum_values with
    | some evs => (match v with | .vstr s => evs.contains s | _ => false)
    | none => true
  | .json => true

/-- Modelled from the spec: one field definition is satisfied — if
required, the field is present (not undefined, null or empty string),
and any present non-null value satisfies its constraints. -/
def specFieldOk (zeroLenUnset : Bool) (env : JsEnv) (data : Data) (f : FieldDef) : Bool :=
  (match getField data f.name with
   | none => !f.required
   | some v => !(f.required && isMissingVal v)) &&
  (match getField data f.name with
   | none => true
   | some v => if isNullVal v then true else specTypeOk zeroLenUnset env f v)

/-- Modelled from the spec: the payload satisfies every field definition
of the schema. -/
def specValidAgainstSchema (zeroLenUnset : Bool) (env : JsEnv) (data : Data) (schema : List FieldDef) : Bool :=
  schema.all (specFieldOk zeroLenUnset env data)

/-! ## Data service model (src/services/data.service.ts) -/

/-- End-user roles (auth.ts). -/
inductive Role where
  | admin | editor | user | guest
deriving DecidableEq

/-- The check `userRole !== admin && userRole !== editor` appearing in
the ownership conditions, negated. -/
def isPrivileged : Option Role → Bool
  | some .admin => true
  | some .editor => true
  | _ => false

/-- The check `userRole !== admin`, negated (adminWriteOnly gate). -/
def isAdmin : Option Role → Bool
  | some .admin => true
  | _ => false

/-- JS truthiness of the optional userId string (an empty string is
falsy, so it disables the ownership filter exactly like undefined). -/
def userTruthy : Option String → Bool
  | some s => s != ""
  | none => false

/-- Collection settings (CollectionInfo.settings). -/
structure Settings where
  ownerReadOnly : Bool
  ownerWriteOnly : Bool
  publicRead : Bool
  adminWriteOnly : Bool

/-- The read `collection.settings || empty-object` followed by reads of
possibly-undefined flags: absent settings mean all flags false. -/
def settingsOf : Option Settings → Settings
  | some s => s
  | none => ⟨false, false, false, false⟩

/-- A row of app_collections. -/
structure Collection where
  id : String
  app_id : String
  name : String
  schema : List FieldDef
  settings : Option Settings

/-- A row of app_collection_items. -/
structure Item where
  id : String
  app_id : String
  collection_id : String
  end_user_id : Option String
  data : Data
  sort_order : Int
  is_archived : Bool
  created_at : Nat
  updated_at : Nat

/-- The storage state visible to the data service. -/
structure DB where
  collections : List Collection
  items : List Item

/-- The lookup part of getOrCreateCollection: first app_collections row
with this app_id and name. -/
def findCollection (db : DB) (appId name : String) : Option Collection :=
  db.collections.find? (fun c => c.app_id == appId && c.name == name)

/-- getOrCreateCollection (data.service.ts lines 34-59): find the
collection, else auto-create it with an empty schema and no settings. -/
def getOrCreateCollection (appId name : String) (db : DB) : Collection × DB :=
  match findCollection db appId name with
  | some c => (c, db)
  | none =>
    let c : Collection :=
      { id := "autocol" ++ toString db.collections.length
        app_id := appId
        name := name
        schema := []
        settings := none }
    (c, { collections := db.collections ++ [c], items := db.items })

/-- An error thrown with an attached HTTP status (the
Object.assign(new Error(...), status) pattern). -/
structure ApiErr where
  status : Nat
  message : String
deriving DecidableEq

/-- The normalized record returned by the CRUD operations:
id, the data keys, and the _meta block with the owner. -/
structure ItemView where
  id : String
  data : Data
  owner_id : Option String

def itemView (it : Item) : ItemView :=
  { id := it.id, data := it.data, owner_id := it.end_user_id }

/-- Sort direction of the list query. -/
inductive SortDir where
  | asc | desc
deriving DecidableEq

/-- Query options of listItems (QueryOpts). -/
structure QueryOpts where
  limit : Nat
  offset : Nat
  orderBy : Option String
  order : SortDir
  filters : Option (List (String × String))
  userId : Option String
  userRole : Option Role
  ownOnly : Bool

/-- The text Postgres extracts for `data ->> key`: strings unchanged,
numbers and booleans rendered, JSON null giving SQL NULL (none). Nested
values render to their JSON text (exact shape immaterial here). -/
def jsonText : Val → Option String
  | .vnull => none
  | .vstr s => some s
  | .vnum n => some (toString n)
  | .vbool b => some (if b then "true" else "false")
  | .varr _ => some "(json array)"
  | .vobj _ => some "(json object)"

/-- The filter expressions the dynamic-filter loop of listItems sends to
storage (line 111 of data.service.ts): for each caller-supplied filter
entry, the raw key interpolated after `data ->>` to form the column
expression, with no check of any kind, paired with the value. -/
def listQueryFilters (filters : List (String × String)) : List (String × String) :=
  filters.map (fun kv => ("data->>" ++ kv.1, kv.2))

/-- Modelled from the spec: the safe identifier pattern unsafe filter
keys must be checked against (letters, digits, underscore, not starting
with a digit). -/
def isSafeIdentifier (s : String) : Bool :=
  match s.toList with
  | [] => false
  | c :: cs => (c.isAlpha || c == '_') && cs.all (fun d => d.isAlphanum || d == '_')

/-- How the storage evaluates one of the built filter expressions on a
row, for expressions of the shape `data ->> key`: the text of the data
value at the key (the part after the 7-character prefix) must equal the
filter value. -/
def filterExprMatches (d : Data) (expr : String × String) : Bool :=
  match getField d (expr.1.drop 7) with
  | some v => jsonText v == some expr.2
  | none => false

def filtersMatch (filters : Option (List (String × String))) (d : Data) : Bool :=
  match filters with
  | some fs => (listQueryFilters fs).all (filterExprMatches d)
  | none => true

/-- The sort key of the list query: orderBy when it is one of the safe
order fields, otherwise created_at. -/
def sortKey (orderBy : Option String) (it : Item) : Int :=
  match orderBy with
  | some "created_at" => (it.created_at : Int)
  | some "updated_at" => (it.updated_at : Int)
  | some "sort_order" => it.sort_order
  | _ => (it.created_at : Int)

def sortLE (orderBy : Option String) (dir : SortDir) (a b : Item) : Bool :=
  match dir with
  | .asc => sortKey orderBy a ≤ sortKey orderBy b
  | .desc => sortKey orderBy b ≤ sortKey orderBy a

/-- Stable insertion used to model the ORDER BY of the list query. -/
def insertSorted (le : Item → Item → Bool) (x : Item) : List Item → List Item
  | [] => [x]
  | y :: ys => if le x y then x :: y :: ys else y :: insertSorted le x ys

def sortItems (le : Item → Item → Bool) (l : List Item) : List Item :=
  l.foldr (insertSorted le) []

/-- The row predicate of the listItems query: collection, tenant,
not archived, the ownership filter when it applies, and the dynamic
filters. -/
def listRowPred (collectionId appId : String) (ownOnly : Bool) (opts : QueryOpts) (it : Item) : Bool :=
  it.collection_id == collectionId && it.app_id == appId && it.is_archived == false
    && (if ownOnly && userTruthy opts.userId then it.end_user_id == opts.userId else true)
    && filtersMatch opts.filters it.data

structure ListResult where
  items : List ItemView
  total : Nat
  limit : Nat
  offset : Nat
  hasMore : Bool

/-- listItems (data.service.ts lines 87-145). -/
def listItems (appId collectionName : String) (opts : QueryOpts) (db : DB) : ListResult × DB :=
  let cdb := getOrCreateCollection appId collectionName db
  let collection := cdb.1
  let db1 := cdb.2
  let settings := settingsOf collection.settings
  let ownOnly := opts.ownOnly || (settings.ownerReadOnly && !(isPrivileged opts.userRole))
  let rows := db1.items.filter (listRowPred collection.id appId ownOnly opts)
  let sorted := sortItems (sortLE opts.orderBy opts.order) rows
  let total := rows.length
  let page := (sorted.drop opts.offset).take opts.limit
  ({ items := page.map itemView
     total := total
     limit := opts.limit
     offset := opts.offset
     hasMore := decide (opts.offset + opts.limit < total) }, db1)

/-- The row predicate of the getItem query, with the ownership filter
for non-privileged callers on ownerReadOnly collections. -/
def getRowPred (settings : Settings) (appId itemId : String) (userId : Option String) (userRole : Option Role) (it : Item) : Bool :=
  it.id == itemId && it.app_id == appId
    && (if settings.ownerReadOnly && !(isPrivileged userRole) && userTruthy userId
        then it.end_user_id == userId else true)

/-- getItem (data.service.ts lines 147-175). The .single() call yields
the row only when exactly one matches; any other outcome is thrown as
Item not found with status 404. -/
def getItem (appId collectionName itemId : String) (userId : Option String) (userRole : Option Role) (db : DB) : Except ApiErr ItemView × DB :=
  let cdb := getOrCreateCollection appId collectionName db
  let collection := cdb.1
  let db1 := cdb.2
  let settings := settingsOf collection.settings
  match db1.items.filter (getRowPred settings appId itemId userId userRole) with
  | [it] => (.ok (itemView it), db1)
  | _ => (.error ⟨404, "Item not found"⟩, db1)

/-- The string the JS code would pass to the storage equality check when
a relation field holds this value (`resolved[field.name] as string`). -/
def refString : Val → String
  | .vstr s => s
  | .vnum n => toString n
  | .vbool b => if b then "true" else "false"
  | _ => ""

/-- resolveRelations (data.service.ts lines 344-370): for every schema
field with a relation and a truthy payload value, resolve the referenced
collection (auto-creating it) and require a row with that id in it. -/
def resolveRelationsGo (appId : String) (data : Data) : List FieldDef → DB → Except ApiErr Data × DB
  | [], db => (.ok data, db)
  | f :: fs, db =>
    match f.relation with
    | some rel =>
      if valTruthy (getField data f.name) then
        let rdb := getOrCreateCollection appId rel.collection db
        let refId := refString ((getField data f.name).getD .vnull)
        match rdb.2.items.filter (fun it => it.id == refId && it.collection_id == rdb.1.id) with
        | [_] => resolveRelationsGo appId data fs rdb.2
        | _ => (.error ⟨400, "Referenced item not found: " ++ rel.collection ++ "/" ++ refId⟩, rdb.2)
      else resolveRelationsGo appId data fs db
    | none => resolveRelationsGo appId data fs db

def resolveRelations (appId : String) (collection : Collection) (data : Data) (db : DB) : Except ApiErr Data × DB :=
  if collection.schema.isEmpty then (.ok data, db)
  else resolveRelationsGo appId data collection.schema db

/-- createItem (data.service.ts lines 177-224): adminWriteOnly gate,
schema validation when a schema exists, relation resolution, insert. -/
def createItem (env : JsEnv) (appId collectionName : String) (data : Data) (userId : Option String) (userRole : Option Role) (db : DB) : Except ApiErr ItemView × DB :=
  let cdb := getOrCreateCollection appId collectionName db
  let collection := cdb.1
  let db1 := cdb.2
  let settings := settingsOf collection.settings
  if settings.adminWriteOnly && !(isAdmin userRole) then
    (.error ⟨403, "Only admins can add items to this collection"⟩, db1)
  else
    let errs := if collection.schema.length > 0 then validateDataAgainstSchema env data collection.schema else []
    if errs.length > 0 then
      (.error ⟨400, "Validation failed: " ++ String.intercalate "; " errs⟩, db1)
    else
      match resolveRelations appId collection data db1 with
      | (.error e, db2) => (.error e, db2)
      | (.ok resolvedData, db2) =>
        let it : Item :=
          { id := "item" ++ toString db2.items.length
            app_id := appId
            collection_id := collection.id
            end_user_id := if userTruthy userId then userId else none
            data := resolvedData
            sort_order := 0
            is_archived := false
            created_at := 0
            updated_at := 0 }
        (.ok (itemView it), { collections := db2.collections, items := db2.items ++ [it] })

/-- Shallow one-level merge of the JS object spread
`(...existing.data, ...data)`: keys of the existing object keep their
position and take the new value when present; keys only in the update
are appended. -/
def mergeData (old new_ : Data) : Data :=
  old.map (fun kv => (kv.1, ((getField new_ kv.1).getD kv.2))) ++
    new_.filter (fun kv => (getField old kv.1).isNone)

/-- The row predicate of the update-existing fetch, with the ownership
filter for non-privileged callers on ownerWriteOnly collections. -/
def updateFetchPred (settings : Settings) (appId itemId : String) (userId : Option String) (userRole : Option Role) (it : Item) : Bool :=
  it.id == itemId && it.app_id == appId
    && (if settings.ownerWriteOnly && !(isPrivileged userRole) && userTruthy userId
        then it.end_user_id == userId else true)

def withData (it : Item) (d : Data) : Item :=
  { it with data := d }

/-- updateItem (data.service.ts lines 226-286): adminWriteOnly gate,
ownership-filtered fetch (404 on a miss), shallow merge, validation of
the merged data, then the update keyed only on id and app_id. -/
def updateItem (env : JsEnv) (appId collectionName itemId : String) (data : Data) (userId : Option String) (userRole : Option Role) (db : DB) : Except ApiErr ItemView × DB :=
  let cdb := getOrCreateCollection appId collectionName db
  let collection := cdb.1
  let db1 := cdb.2
  let settings := settingsOf collection.settings
  if settings.adminWriteOnly && !(isAdmin userRole) then
    (.error ⟨403, "Only admins can edit items in this collection"⟩, db1)
  else
    match db1.items.filter (updateFetchPred settings appId itemId userId userRole) with
    | [existing] =>
      let merged := mergeData existing.data data
      let errs := if collection.schema.length > 0 then validateDataAgainstSchema env merged collection.schema else []
      if errs.length > 0 then
        (.error ⟨400, "Validation failed: " ++ String.intercalate "; " errs⟩, db1)
      else
        let newItems := db1.items.map (fun it =>
          if it.id == itemId && it.app_id == appId then withData it merged else it)
        let db2 : DB := { collections := db1.collections, items := newItems }
        match newItems.filter (fun it => it.id == itemId && it.app_id == appId) with
        | [it] => (.ok (itemView it), db2)
        | _ => (.error ⟨500, "update did not return a single row"⟩, db2)
    | _ => (.error ⟨404, "Item not found"⟩, db1)

structure SuccessResult where
  success : Bool
deriving DecidableEq

/-- The row predicate of the delete query: id, tenant, and the ownership
filter for non-privileged callers on ownerWriteOnly collections. Note no
adminWriteOnly gate appears anywhere in deleteItem. -/
def deleteRowPred (settings : Settings) (appId itemId : String) (userId : Option String) (userRole : Option Role) (it : Item) : Bool :=
  it.id == itemId && it.app_id == appId
    && (if settings.ownerWriteOnly && !(isPrivileged userRole) && userTruthy userId
        then it.end_user_id == userId else true)

/-- deleteItem (data.service.ts lines 288-305): ownership-filtered hard
delete, returning success unconditionally. -/
def deleteItem (appId collectionName itemId : String) (userId : Option String) (userRole : Option Role) (db : DB) : Except ApiErr SuccessResult × DB :=
  let cdb := getOrCreateCollection appId collectionName db
  let collection := cdb.1
  let db1 := cdb.2
  let settings := settingsOf collection.settings
  (.ok ⟨true⟩,
   { collections := db1.collections
     items := db1.items.filter (fun it => !(deleteRowPred settings appId itemId userId userRole it)) })

structure BulkDeleteResult where
  deleted : Nat
deriving DecidableEq

structure BulkArchiveResult where
  archived : Nat
deriving DecidableEq

/-- bulkDelete (data.service.ts lines 320-329): set-based delete keyed on
the id list and the tenant, returning the length of the id list. -/
def bulkDelete (appId collectionName : String) (itemIds : List String) (db : DB) : BulkDeleteResult × DB :=
  let cdb := getOrCreateCollection appId collectionName db
  let db1 := cdb.2
  ({ deleted := itemIds.length },
   { collections := db1.collections
     items := db1.items.filter (fun it => !(itemIds.contains it.id && it.app_id == appId)) })

/-- bulkArchive (data.service.ts lines 331-340): set is_archived on the
matching rows, returning the length of the id list. -/
def bulkArchive (appId collectionName : String) (itemIds : List String) (db : DB) : BulkArchiveResult × DB :=
  let cdb := getOrCreateCollection appId collectionName db
  let db1 := cdb.2
  ({ archived := itemIds.length },
   { collections := db1.collections
     items := db1.items.map (fun it =>
       if itemIds.contains it.id && it.app_id == appId then { it with is_archived := true } else it) })

/-! ## Rate limiter model (src/whatsapp-bot.ts lines 439-492) -/

structure RateBucket where
  tokens : Int
  lastRefill : Nat
deriving DecidableEq

structure RateLimitConfig where
  maxRequests : Int
  windowMs : Nat

/-- Outcome of one pass through the rateLimit middleware. -/
inductive RateDecision where
  | allowed (remaining : Int)
  | limited (retryAfterSeconds : Nat)
deriving DecidableEq

def RateDecision.isAllowed : RateDecision → Bool
  | .allowed _ => true
  | .limited _ => false

/-- One request through the rateLimit middleware for its key: create the
bucket full if absent, lazily refill floor(elapsed/window)*maxRequests
tokens capped at capacity, then either reject with
retry-after = ceil(remaining-window-ms / 1000) or consume one token.
Time is a Nat (the theorems use monotone timestamps, under which Nat
subtraction agrees with the JS arithmetic). -/
def rateLimitStep (cfg : RateLimitConfig) (bucket0 : Option RateBucket) (now : Nat) : RateDecision × RateBucket :=
  let b := bucket0.getD ⟨cfg.maxRequests, now⟩
  let elapsed := now - b.lastRefill
  let refill : Int := (Int.ofNat (elapsed / cfg.windowMs)) * cfg.maxRequests
  let b1 : RateBucket := if refill > 0 then ⟨min cfg.maxRequests (b.tokens + refill), now⟩ else b
  if b1.tokens ≤ 0 then
    (.limited ((cfg.windowMs - (now - b1.lastRefill) + 999) / 1000), b1)
  else
    (.allowed (b1.tokens - 1), ⟨b1.tokens - 1, b1.lastRefill⟩)

/-! ## Auth middleware model (src/middleware/auth.ts) -/

/-- The claims of a verified session token. -/
structure TokenPayload where
  sub : String
  app : String
  role : Option Role

structure AuthUser where
  userId : String
  appId : String
  email : String
  role : Role

/-- The req.auth object built from a verified payload: a missing role
claim defaults to user. -/
def authFromPayload (p : TokenPayload) : AuthUser :=
  { userId := p.sub, appId := p.app, email := "", role := p.role.getD .user }

/-- Outcome of an auth middleware: pass the request on (with or without
req.auth set), or respond with a status and an error code. -/
inductive AuthResult where
  | proceed (auth : Option AuthUser)
  | reject (status : Nat) (code : String)

/-- The `header startsWith Bearer-space, then slice(7)` extraction shared
by parseAuth and requireAuth, modelled on the character sequence of the
header. jwt.verify is abstracted as a function returning the payload on
success and none on any failure (invalid signature, expired token,
malformed payload — the library throws in all three cases, which both
middlewares catch identically). -/
def bearerToken (header : Option String) : Option String :=
  match header with
  | some h => if "Bearer ".data.isPrefixOf h.data then some ⟨h.data.drop 7⟩ else none
  | none => none

/-- parseAuth (auth.ts lines 86-104): optional auth; a missing bearer or
a failing verification just continues with no identity. -/
def parseAuth (verify : String → Option TokenPayload) (header : Option String) : AuthResult :=
  match bearerToken header with
  | none => .proceed none
  | some t =>
    match verify t with
    | some p => .proceed (some (authFromPayload p))
    | none => .proceed none

/-- requireAuth (auth.ts lines 109-127): 401 AUTH_REQUIRED with no
bearer header, 401 AUTH_INVALID when verification fails. -/
def requireAuth (verify : String → Option TokenPayload) (header : Option String) : AuthResult :=
  match bearerToken header with
  | none => .reject 401 "AUTH_REQUIRED"
  | some t =>
    match verify t with
    | some p => .proceed (some (authFromPayload p))
    | none => .reject 401 "AUTH_INVALID"

/-! ## Helper lemmas about the store model -/

theorem getOrCreate_items (appId cn : String) (db : DB) :
    (getOrCreateCollection appId cn db).2.items = db.items := by
  unfold getOrCreateCollection
  cases hf : findCollection db appId cn <;> simp

theorem getOrCreate_collection_exists (appId cn : String) (db : DB) :
    ∃ c ∈ (getOrCreateCollection appId cn db).2.collections, c.app_id = appId ∧ c.name = cn := by
  unfold getOrCreateCollection
  cases hf : findCollection db appId cn with
  | some c =>
    dsimp only
    unfold findCollection at hf
    have hmem : c ∈ db.collections := List.mem_of_find?_eq_some hf
    have hp := List.find?_some hf
    simp only [Bool.and_eq_true, beq_iff_eq] at hp
    exact ⟨c, hmem, hp.1, hp.2⟩
  | none =>
    dsimp only
    exact ⟨⟨"autocol" ++ toString db.collections.length, appId, cn, [], none⟩,
      List.mem_append_right _ (by simp), rfl, rfl⟩

theorem filter_map_pres (p : Item → Bool) (g : Item → Item)
    (hpg : ∀ it, p (g it) = p it) (l : List Item) :
    (l.map g).filter p = (l.filter p).map g := by
  rw [List.filter_map]
  congr 1
  exact List.filter_congr (fun a _ => hpg a)

/-- Reduction of updateItem when the ownership-filtered fetch misses:
404 and an unchanged store. -/
theorem updateItem_miss (env : JsEnv) (appId cn iid : String) (d : Data)
    (u : Option String) (r : Option Role) (db : DB) (c : Collection) (db1 : DB)
    (hc : getOrCreateCollection appId cn db = (c, db1))
    (hgate : ((settingsOf c.settings).adminWriteOnly && !(isAdmin r)) = false)
    (hmiss : db1.items.filter (updateFetchPred (settingsOf c.settings) appId iid u r) = []) :
    updateItem env appId cn iid d u r db = (.error ⟨404, "Item not found"⟩, db1) := by
  have hgate' : ¬ ((((settingsOf c.settings).adminWriteOnly && !(isAdmin r)) : Bool) = true) := by
    rw [hgate]; simp
  unfold updateItem
  rw [hc]
  dsimp only
  rw [if_neg hgate', hmiss]

/-- Reduction of updateItem when the fetch hits but the merged data
fails schema validation: a 400 error and an unchanged store — the merged
result is validated before anything is persisted. -/
theorem updateItem_invalid (env : JsEnv) (appId cn iid : String) (d : Data)
    (u : Option String) (r : Option Role) (db : DB) (c : Collection) (db1 : DB) (ex : Item)
    (hc : getOrCreateCollection appId cn db = (c, db1))
    (hgate : ((settingsOf c.settings).adminWriteOnly && !(isAdmin r)) = false)
    (hhit : db1.items.filter (updateFetchPred (settingsOf c.settings) appId iid u r) = [ex])
    (hlen : 0 < c.schema.length)
    (hval : validateDataAgainstSchema env (mergeData ex.data d) c.schema ≠ []) :
    updateItem env appId cn iid d u r db
      = (.error ⟨400, "Validation failed: " ++ String.intercalate "; "
          (validateDataAgainstSchema env (mergeData ex.data d) c.schema)⟩, db1) := by
  have hgate' : ¬ ((((settingsOf c.settings).adminWriteOnly && !(isAdmin r)) : Bool) = true) := by
    rw [hgate]; simp
  unfold updateItem
  rw [hc]
  dsimp only
  rw [if_neg hgate', hhit]
  dsimp only
  rw [if_pos hlen, if_pos (List.length_pos.mpr hval)]

/-- Reduction of updateItem when the fetch hits and the merged data
passes validation (or the collection is schemaless): the merge is
persisted, keyed only on id and tenant. -/
theorem updateItem_found (env : JsEnv) (appId cn iid : String) (d : Data)
    (u : Option String) (r : Option Role) (db : DB) (c : Collection) (db1 : DB) (ex : Item)
    (hc : getOrCreateCollection appId cn db = (c, db1))
    (hgate : ((settingsOf c.settings).adminWriteOnly && !(isAdmin r)) = false)
    (hhit : db1.items.filter (updateFetchPred (settingsOf c.settings) appId iid u r) = [ex])
    (hfull : db1.items.filter (fun it => it.id == iid && it.app_id == appId) = [ex])
    (hok : c.schema = [] ∨ validateDataAgainstSchema env (mergeData ex.data d) c.schema = []) :
    updateItem env appId cn iid d u r db
      = (.ok (itemView (withData ex (mergeData ex.data d))),
         { collections := db1.collections
           items := db1.items.map (fun it =>
             if it.id == iid && it.app_id == appId
             then withData it (mergeData ex.data d) else it) }) := by
  have herrs : (if 0 < c.schema.length
      then validateDataAgainstSchema env (mergeData ex.data d) c.schema else []) = [] := by
    rcases hok with hs | hv
    · simp [hs]
    · by_cases h : 0 < c.schema.length <;> simp [h, hv]
  have hpg : ∀ it, ((fun it => it.id == iid && it.app_id == appId)
        (if it.id == iid && it.app_id == appId
         then withData it (mergeData ex.data d) else it))
      = (it.id == iid && it.app_id == appId) := by
    intro it
    by_cases h : (it.id == iid && it.app_id == appId) = true <;> simp [h, withData]
  have hexp : (ex.id == iid && ex.app_id == appId) = true := by
    have hmem : ex ∈ db1.items.filter (fun it => it.id == iid && it.app_id == appId) := by
      rw [hfull]; simp
    exact (List.mem_filter.mp hmem).2
  have hmapped : (db1.items.map (fun it =>
        if it.id == iid && it.app_id == appId
        then withData it (mergeData ex.data d) else it)).filter
          (fun it => it.id == iid && it.app_id == appId)
      = [withData ex (mergeData ex.data d)] := by
    rw [filter_map_pres _ _ hpg, hfull]
    simp only [List.map_cons, List.map_nil]
    rw [if_pos hexp]
  have hgate' : ¬ ((((settingsOf c.settings).adminWriteOnly && !(isAdmin r)) : Bool) = true) := by
    rw [hgate]; simp
  unfold updateItem
  rw [hc]
  dsimp only
  rw [if_neg hgate', hhit]
  dsimp only
  rw [herrs]
  rw [if_neg (show ¬ ((0 : Nat) < ([] : List String).length) from by simp)]
  rw [hmapped]

/-! ## Concrete fixtures used by the claim theorems -/

/-- An environment in which no string parses as a date, email or URL
(unused by the fixtures below, which have no date/email/url fields). -/
def env0 : JsEnv := ⟨fun _ => false, fun _ => false, fun _ => false⟩

/-- A collection with ownerReadOnly set. -/
def ownerReadCol : Collection := ⟨"c1", "app", "notes", [], some ⟨true, false, false, false⟩⟩

/-- An item of that collection owned by userB. -/
def secretItem : Item := ⟨"i1", "app", "c1", some "userB", [("title", .vstr "secret")], 0, false, 0, 0⟩

def dbOwnerRead : DB := ⟨[ownerReadCol], [secretItem]⟩

def listOpts (u : Option String) (r : Option Role) : QueryOpts :=
  ⟨100, 0, none, .desc, none, u, r, false⟩

/-- A collection with adminWriteOnly set, holding one item. -/
def adminWriteCol : Collection := ⟨"c2", "app", "prot", [], some ⟨false, false, false, true⟩⟩

def protItem : Item := ⟨"p1", "app", "c2", some "u1", [("title", .vstr "keep")], 0, false, 0, 0⟩

def dbAdminWrite : DB := ⟨[adminWriteCol], [protItem]⟩

/-- A collection with no settings, holding one item. -/
def plainCol : Collection := ⟨"c3", "app", "things", [], none⟩

def thingItem : Item := ⟨"t1", "app", "c3", some "u1", [("n", .vnum 1)], 0, false, 0, 0⟩

def dbPlain : DB := ⟨[plainCol], [thingItem]⟩

/-! ## Claim theorems -/

/-- Claim C1, evaluated at the failing input (code bug). On the
ownerReadOnly collection holding only an item owned by userB:
an unauthenticated caller (no identity, no role) receives the full
result set from listItems — including the item of userB — because the
ownership filter is only applied when a userId is present, where the
claim and the spec demand an empty result; an authenticated non-owner
does get an empty list and NOT_FOUND from getItem, and an admin sees
the item (the true parts of the claim); getItem also leaks the foreign
item to the unauthenticated caller. -/
theorem claim_C1_code_bug_eval :
    (listItems "app" "notes" (listOpts none none) dbOwnerRead).1.items
      = [{ id := "i1", data := [("title", Val.vstr "secret")], owner_id := some "userB" }]
    ∧ (listItems "app" "notes" (listOpts (some "userA") (some .user)) dbOwnerRead).1.items = []
    ∧ (listItems "app" "notes" (listOpts none (some .admin)) dbOwnerRead).1.items
      = [{ id := "i1", data := [("title", Val.vstr "secret")], owner_id := some "userB" }]
    ∧ (getItem "app" "notes" "i1" (some "userA") (some .user) dbOwnerRead).1
      = .error ⟨404, "Item not found"⟩
    ∧ (getItem "app" "notes" "i1" none none dbOwnerRead).1
      = .ok { id := "i1", data := [("title", Val.vstr "secret")], owner_id := some "userB" } :=
  ⟨rfl, rfl, rfl, rfl, rfl⟩

/-- Claim C2, evaluated at the failing input (code bug). The dynamic
filter key `status,or(id.gt.0` does not match the safe identifier
pattern, yet listItems interpolates it verbatim into the column
expression it sends to storage instead of rejecting or ignoring it. -/
theorem claim_C2_code_bug_eval :
    isSafeIdentifier "status,or(id.gt.0" = false
    ∧ listQueryFilters [("status,or(id.gt.0", "done")]
      = [("data->>status,or(id.gt.0", "done")] :=
  ⟨rfl, rfl⟩

/-- Claim C3, evaluated at the failing input (code bug). On the
adminWriteOnly collection, createItem and updateItem by a non-admin are
denied with status 403 as claimed, but deleteItem by a non-admin caller
succeeds and removes the item: deleteItem has no adminWriteOnly gate. -/
theorem claim_C3_code_bug_eval :
    (createItem env0 "app" "prot" [("t", Val.vstr "x")] (some "u2") (some .user) dbAdminWrite).1
      = .error ⟨403, "Only admins can add items to this collection"⟩
    ∧ (updateItem env0 "app" "prot" "p1" [("t", Val.vstr "x")] (some "u2") (some .user) dbAdminWrite).1
      = .error ⟨403, "Only admins can edit items in this collection"⟩
    ∧ (deleteItem "app" "prot" "p1" (some "u2") (some .user) dbAdminWrite).1 = .ok ⟨true⟩
    ∧ (deleteItem "app" "prot" "p1" (some "u2") (some .user) dbAdminWrite).2.items = [] :=
  ⟨rfl, rfl, rfl, rfl⟩

/-- Claim C4 counterexample: deleting an id that is absent from the
tenant reports plain success with the stored items untouched, not
NOT_FOUND as the claim states. -/
theorem claim_C4_counterexample :
    (deleteItem "app" "things" "ghost" (some "u1") (some .user) dbPlain).1 = .ok ⟨true⟩
    ∧ (deleteItem "app" "things" "ghost" (some "u1") (some .user) dbPlain).2.items = dbPlain.items :=
  ⟨rfl, rfl⟩

/-- Claim C4 (amended): when no row of the tenant has the target id,
deleteItem reports success with the stored items unchanged — a silent
success, never NOT_FOUND. -/
theorem claim_C4_amended (appId cn iid : String) (u : Option String) (r : Option Role) (db : DB)
    (h : db.items.filter (fun it => it.id == iid && it.app_id == appId) = []) :
    (deleteItem appId cn iid u r db).1 = .ok ⟨true⟩
    ∧ (deleteItem appId cn iid u r db).2.items = db.items := by
  constructor
  · rfl
  · have hitems : ((getOrCreateCollection appId cn db).2).items = db.items := by
      unfold getOrCreateCollection
      cases hf : findCollection db appId cn <;> simp
    show ((getOrCreateCollection appId cn db).2).items.filter _ = db.items
    rw [hitems]
    apply List.filter_eq_self.mpr
    intro it hit
    have hfalse := List.filter_eq_nil_iff.mp h it hit
    simp only [Bool.not_eq_true', Bool.not_eq_false] at hfalse ⊢
    unfold deleteRowPred
    cases hid : (it.id == iid) <;> cases happ : (it.app_id == appId) <;> simp_all

/-- Witness for the amended C4 theorem at a concrete absent id. -/
theorem claim_C4_amended_witness :
    (deleteItem "app" "things" "ghost" (some "u1") (some .user) dbPlain).1 = .ok ⟨true⟩
    ∧ (deleteItem "app" "things" "ghost" (some "u1") (some .user) dbPlain).2.items = dbPlain.items :=
  claim_C4_amended "app" "things" "ghost" (some "u1") (some .user) dbPlain rfl

/-- Claim C5 counterexample: bulkDelete and bulkArchive of an id list
whose single id matches nothing in the tenant report a count of 1 while
zero rows were affected. -/
theorem claim_C5_counterexample :
    (bulkDelete "app" "things" ["ghost"] dbPlain).1.deleted = 1
    ∧ (bulkDelete "app" "things" ["ghost"] dbPlain).2.items = dbPlain.items
    ∧ (bulkArchive "app" "things" ["ghost"] dbPlain).1.archived = 1
    ∧ (bulkArchive "app" "things" ["ghost"] dbPlain).2.items = dbPlain.items :=
  ⟨rfl, rfl, rfl, rfl⟩

/-- Claim C5 (amended): the counts returned by bulkDelete and
bulkArchive are always the length of the supplied id list, regardless
of how many rows were actually affected. -/
theorem claim_C5_amended (appId cn : String) (ids : List String) (db : DB) :
    (bulkDelete appId cn ids db).1.deleted = ids.length
    ∧ (bulkArchive appId cn ids db).1.archived = ids.length :=
  ⟨rfl, rfl⟩

/-! ## Validator equivalence (claim C6) -/

theorem minCheck_iff (m : Int) (len : Nat) (msg : String) :
    ((if m != 0 && ((len : Int) < m : Bool) then [msg] else []) = [])
      ↔ ((if m == 0 then (true : Bool) else ((m : Int) ≤ (len : Int))) = true) := by
  by_cases hm : m = 0 <;> simp [hm]

theorem maxCheck_iff (m : Int) (len : Nat) (msg : String) :
    ((if m != 0 && ((len : Int) > m : Bool) then [msg] else []) = [])
      ↔ ((if m == 0 then (true : Bool) else ((len : Int) ≤ (m : Int))) = true) := by
  by_cases hm : m = 0 <;> simp [hm]

theorem typeErrors_eq_nil_iff (env : JsEnv) (f : FieldDef) (v : Val) :
    typeErrors env f v = [] ↔ specTypeOk true env f v = true := by
  rcases f with ⟨nm, ty, req, mn, mx, mnL, mxL, evs, rel⟩
  cases ty <;> cases v
  case text.vstr s =>
    simp only [typeErrors, specTypeOk, Bool.true_and]
    refine (List.append_eq_nil.trans ?_).trans ((Bool.and_eq_true _ _).to_iff).symm
    apply and_congr
    · cases mnL with
      | none => simp
      | some m => exact minCheck_iff m s.length _
    · cases mxL with
      | none => simp
      | some m => exact maxCheck_iff m s.length _
  case number.vnum n =>
    simp only [typeErrors, specTypeOk]
    refine (List.append_eq_nil.trans ?_).trans ((Bool.and_eq_true _ _).to_iff).symm
    apply and_congr
    · cases mn with
      | none => simp
      | some m => simp
    · cases mx with
      | none => simp
      | some m => simp
  all_goals simp only [typeErrors, specTypeOk]
  all_goals try simp
  all_goals (cases evs <;> simp)

theorem fieldErrors_eq_nil_iff (env : JsEnv) (data : Data) (f : FieldDef) :
    fieldErrors env data f = [] ↔ specFieldOk true env data f = true := by
  have hnull : ∀ w : Val, isNullVal w = true → isMissingVal w = true := by
    intro w hw; cases w <;> simp_all [isNullVal, isMissingVal]
  unfold fieldErrors specFieldOk
  cases hv : getField data f.name with
  | none => cases hr : f.required <;> simp
  | some v =>
    by_cases hn : isNullVal v = true
    · have hm := hnull v hn
      cases hr : f.required <;> simp [hm, hn]
    · have hn' : isNullVal v = false := by simpa using hn
      cases hr : f.required
      · simp [hn', typeErrors_eq_nil_iff]
      · by_cases hm : isMissingVal v = true
        · simp [hm, hn']
        · have hm' : isMissingVal v = false := by simpa using hm
          simp [hm', hn', typeErrors_eq_nil_iff]

/-- Claim C6 (amended): validateDataAgainstSchema returns the empty list
iff every required field is present (not undefined, null or empty
string) and every present non-null field value satisfies its type,
range, length and enum constraints — where a minLength or maxLength
bound equal to 0 is treated as unset (JS truthiness skips it); payload
keys not named in the schema never change the outcome; the empty
schema accepts every payload; and the violations of all schema fields
are collected into one list rather than stopping at the first. -/
theorem claim_C6_amended (env : JsEnv) (data : Data) (schema : List FieldDef) :
    (validateDataAgainstSchema env data schema = []
      ↔ specValidAgainstSchema true env data schema = true)
    ∧ (∀ k v, (∀ f ∈ schema, f.name ≠ k) →
        validateDataAgainstSchema env ((k, v) :: data) schema
          = validateDataAgainstSchema env data schema)
    ∧ validateDataAgainstSchema env data [] = []
    ∧ (∀ s1 s2, validateDataAgainstSchema env data (s1 ++ s2)
        = validateDataAgainstSchema env data s1 ++ validateDataAgainstSchema env data s2) := by
  refine ⟨?_, ?_, rfl, fun s1 s2 => by
    simp [validateDataAgainstSchema, List.map_append, List.flatten_append]⟩
  · simp only [validateDataAgainstSchema, specValidAgainstSchema, List.flatten_eq_nil_iff,
      List.mem_map, List.all_eq_true, forall_exists_index, and_imp,
      forall_apply_eq_imp_iff₂]
    exact forall_congr' fun f => forall_congr' fun _ => fieldErrors_eq_nil_iff env data f
  · intro k v hk
    unfold validateDataAgainstSchema
    congr 1
    apply List.map_congr_left
    intro f hf
    have hne : f.name ≠ k := hk f hf
    have hgf : getField ((k, v) :: data) f.name = getField data f.name := by
      have hkne : ((k : String) == f.name) = false := by
        simp only [beq_eq_false_iff_ne, ne_eq]
        exact fun he => hne he.symm
      simp [getField, List.find?_cons, hkne]
    unfold fieldErrors
    rw [hgf]

/-- Witness for the amended C6 theorem: a schema with a required,
bounded number field, a payload satisfying it, and an extra key not in
the schema. -/
theorem claim_C6_amended_witness :
    (validateDataAgainstSchema env0 [("age", Val.vnum 3)]
        [⟨"age", FieldType.number, true, some 0, some 10, none, none, none, none⟩] = []
      ↔ specValidAgainstSchema true env0 [("age", Val.vnum 3)]
        [⟨"age", FieldType.number, true, some 0, some 10, none, none, none, none⟩] = true)
    ∧ validateDataAgainstSchema env0 (("extra", Val.vbool true) :: [("age", Val.vnum 3)])
        [⟨"age", FieldType.number, true, some 0, some 10, none, none, none, none⟩]
      = validateDataAgainstSchema env0 [("age", Val.vnum 3)]
        [⟨"age", FieldType.number, true, some 0, some 10, none, none, none, none⟩] := by
  have h := claim_C6_amended env0 [("age", Val.vnum 3)]
    [⟨"age", FieldType.number, true, some 0, some 10, none, none, none, none⟩]
  exact ⟨h.1, h.2.1 "extra" (Val.vbool true) (by decide)⟩

/-- Claim C6 counterexample: a valid FieldDef with maxLength 0 (allowed
by fieldDefSchema, whose maxLength has no lower bound) and the payload
with the one-character string: the validator accepts, yet the field
value does not satisfy its stated length constraint, refuting the
claimed equivalence as written. -/
theorem claim_C6_counterexample :
    validateDataAgainstSchema env0 [("t", Val.vstr "x")]
      [⟨"t", FieldType.text, false, none, none, none, some 0, none, none⟩] = []
    ∧ specValidAgainstSchema false env0 [("t", Val.vstr "x")]
      [⟨"t", FieldType.text, false, none, none, none, some 0, none, none⟩] = false :=
  ⟨rfl, rfl⟩

/-! ## Rate limiter (claim C7) -/

/-- Claim C7: with maxRequests 3 and windowMs 1000, three requests
inside the window are admitted and the fourth is rejected with a
positive retry-after; the refill is computed lazily as
floor(elapsed/window) * maxRequests added tokens capped at capacity, so
a request a full window later is admitted again. The conjuncts chain
the bucket states of five successive requests at monotone times. -/
theorem claim_C7_theorem (t a b c e : Nat) (hab : a ≤ b) (hbc : b ≤ c) (hc : c < 1000) (he : 1000 ≤ e) :
    rateLimitStep ⟨3, 1000⟩ none t = (.allowed 2, ⟨2, t⟩)
    ∧ rateLimitStep ⟨3, 1000⟩ (some ⟨2, t⟩) (t + a) = (.allowed 1, ⟨1, t⟩)
    ∧ rateLimitStep ⟨3, 1000⟩ (some ⟨1, t⟩) (t + b) = (.allowed 0, ⟨0, t⟩)
    ∧ (∃ r, rateLimitStep ⟨3, 1000⟩ (some ⟨0, t⟩) (t + c) = (.limited r, ⟨0, t⟩) ∧ 0 < r)
    ∧ (rateLimitStep ⟨3, 1000⟩ (some ⟨0, t⟩) (t + e)).1.isAllowed = true
    ∧ (rateLimitStep ⟨3, 1000⟩ (some ⟨0, t⟩) (t + e)).2.tokens
        = min 3 (Int.ofNat (e / 1000) * 3) - 1 := by
  have ha : a < 1000 := lt_of_le_of_lt (hab.trans hbc) hc
  have hb : b < 1000 := lt_of_le_of_lt hbc hc
  have hta : (t + a) - t = a := by omega
  have htb : (t + b) - t = b := by omega
  have htc : (t + c) - t = c := by omega
  have hte : (t + e) - t = e := by omega
  have h5 : rateLimitStep ⟨3, 1000⟩ (some ⟨0, t⟩) (t + e)
      = (.allowed (min 3 (Int.ofNat (e / 1000) * 3) - 1),
         ⟨min 3 (Int.ofNat (e / 1000) * 3) - 1, t + e⟩) := by
    have hq : 1 ≤ e / 1000 := (Nat.one_le_div_iff (by norm_num)).mpr he
    have hq1 : (1 : Int) ≤ Int.ofNat (e / 1000) := Int.ofNat_le.mpr hq
    have hpos : (0 : Int) < Int.ofNat (e / 1000) * 3 := by nlinarith
    have htokpos : ¬ (min (3 : Int) (Int.ofNat (e / 1000) * 3) ≤ 0) := by
      have h3 : (3 : Int) ≤ Int.ofNat (e / 1000) * 3 := by nlinarith
      omega
    unfold rateLimitStep
    simp only [Option.getD, hte]
    rw [if_pos hpos]
    dsimp only
    simp only [zero_add]
    rw [if_neg htokpos]
  refine ⟨?_, ?_, ?_, ⟨(1000 - c + 999) / 1000, ?_, by omega⟩, ?_, ?_⟩
  · unfold rateLimitStep
    simp
  · unfold rateLimitStep
    simp [hta, Nat.div_eq_of_lt ha]
  · unfold rateLimitStep
    simp [htb, Nat.div_eq_of_lt hb]
  · unfold rateLimitStep
    simp [htc, Nat.div_eq_of_lt hc]
  · rw [h5]
    rfl
  · rw [h5]

/-- Witness for C7 at concrete times 0, 0, 0, 5 and 1000. -/
theorem claim_C7_witness :
    rateLimitStep ⟨3, 1000⟩ none 0 = (.allowed 2, ⟨2, 0⟩)
    ∧ rateLimitStep ⟨3, 1000⟩ (some ⟨2, 0⟩) (0 + 0) = (.allowed 1, ⟨1, 0⟩)
    ∧ rateLimitStep ⟨3, 1000⟩ (some ⟨1, 0⟩) (0 + 0) = (.allowed 0, ⟨0, 0⟩)
    ∧ (∃ r, rateLimitStep ⟨3, 1000⟩ (some ⟨0, 0⟩) (0 + 5) = (.limited r, ⟨0, 0⟩) ∧ 0 < r)
    ∧ (rateLimitStep ⟨3, 1000⟩ (some ⟨0, 0⟩) (0 + 1000)).1.isAllowed = true
    ∧ (rateLimitStep ⟨3, 1000⟩ (some ⟨0, 0⟩) (0 + 1000)).2.tokens
        = min 3 (Int.ofNat (1000 / 1000) * 3) - 1 :=
  claim_C7_theorem 0 0 0 5 1000 (by norm_num) (by norm_num) (by norm_num) (by norm_num)

/-! ## Auth middleware (claim C9) -/

def verifyNone : String → Option TokenPayload := fun _ => none

/-- Claim C9: on a protected route (requireAuth), a bearer token failing
verification — invalid signature, expired claim or malformed payload all
make the jwt library throw, modelled as the verifier returning none —
yields 401 AUTH_INVALID, and a missing bearer header yields 401
AUTH_REQUIRED; a failing token is never partially trusted: parseAuth
sets no identity for it, and any identity parseAuth does set comes from
a fully verified payload. -/
theorem claim_C9_theorem (verify : String → Option TokenPayload) (header : Option String) :
    (∀ tk, bearerToken header = some tk → verify tk = none →
        requireAuth verify header = .reject 401 "AUTH_INVALID"
        ∧ parseAuth verify header = .proceed none)
    ∧ (bearerToken header = none → requireAuth verify header = .reject 401 "AUTH_REQUIRED")
    ∧ (∀ a, parseAuth verify header = .proceed (some a) →
        ∃ tk p, bearerToken header = some tk ∧ verify tk = some p ∧ a = authFromPayload p) := by
  refine ⟨?_, ?_, ?_⟩
  · intro tk h1 h2
    unfold requireAuth parseAuth
    rw [h1]
    dsimp only
    rw [h2]
    exact ⟨rfl, rfl⟩
  · intro h
    unfold requireAuth
    rw [h]
  · intro a h
    unfold parseAuth at h
    cases hb : bearerToken header with
    | none => rw [hb] at h; exact absurd h (by simp)
    | some tk =>
      rw [hb] at h
      dsimp only at h
      cases hv : verify tk with
      | none => rw [hv] at h; exact absurd h (by simp)
      | some p =>
        rw [hv] at h
        dsimp only at h
        refine ⟨tk, p, rfl, hv, ?_⟩
        simp only [AuthResult.proceed.injEq, Option.some.injEq] at h
        exact h.symm

/-! ## updateItem semantics (claim C8) -/

/-- A schemaless collection holding one todo item, for the C8 witness. -/
def todosCol : Collection := ⟨"c4", "app", "todos", [], none⟩

def todoItem : Item :=
  ⟨"u1", "app", "c4", some "own", [("title", .vstr "X"), ("status", .vstr "todo")], 0, false, 0, 0⟩

def dbTodos : DB := ⟨[todosCol], [todoItem]⟩

/-- Claim C8: for a resolved collection c and store db1 (with the
adminWriteOnly gate not firing), updateItem returns 404 when the
ownership-filtered fetch misses; when it hits and the merged data fails
validation, a 400 error is returned with nothing persisted (the merged
result, not the delta, is validated before persisting); when validation
passes (or the collection is schemaless) the shallow one-level merge of
the new data over the existing data is persisted; and merging
status done into title X, status todo yields title X, status done. -/
theorem claim_C8_theorem (env : JsEnv) (appId cn iid : String) (d : Data)
    (u : Option String) (r : Option Role) (db : DB) (c : Collection) (db1 : DB)
    (hc : getOrCreateCollection appId cn db = (c, db1))
    (hgate : ((settingsOf c.settings).adminWriteOnly && !(isAdmin r)) = false) :
    (db1.items.filter (updateFetchPred (settingsOf c.settings) appId iid u r) = [] →
        updateItem env appId cn iid d u r db = (.error ⟨404, "Item not found"⟩, db1))
    ∧ (∀ ex, db1.items.filter (updateFetchPred (settingsOf c.settings) appId iid u r) = [ex] →
        0 < c.schema.length →
        validateDataAgainstSchema env (mergeData ex.data d) c.schema ≠ [] →
        (updateItem env appId cn iid d u r db).2 = db1
          ∧ ∃ msg, (updateItem env appId cn iid d u r db).1 = .error ⟨400, msg⟩)
    ∧ (∀ ex, db1.items.filter (updateFetchPred (settingsOf c.settings) appId iid u r) = [ex] →
        db1.items.filter (fun it => it.id == iid && it.app_id == appId) = [ex] →
        (c.schema = [] ∨ validateDataAgainstSchema env (mergeData ex.data d) c.schema = []) →
        updateItem env appId cn iid d u r db
          = (.ok (itemView (withData ex (mergeData ex.data d))),
             { collections := db1.collections
               items := db1.items.map (fun it =>
                 if it.id == iid && it.app_id == appId
                 then withData it (mergeData ex.data d) else it) }))
    ∧ mergeData [("title", Val.vstr "X"), ("status", Val.vstr "todo")] [("status", Val.vstr "done")]
        = [("title", Val.vstr "X"), ("status", Val.vstr "done")] := by
  refine ⟨?_, ?_, ?_, rfl⟩
  · intro hmiss
    exact updateItem_miss env appId cn iid d u r db c db1 hc hgate hmiss
  · intro ex hhit hlen hval
    rw [updateItem_invalid env appId cn iid d u r db c db1 ex hc hgate hhit hlen hval]
    exact ⟨rfl, _, rfl⟩
  · intro ex hhit hfull hok
    exact updateItem_found env appId cn iid d u r db c db1 ex hc hgate hhit hfull hok

/-- Witness for C8: merging status done into the todo item through a
schemaless collection persists the merged record. -/
theorem claim_C8_witness :
    updateItem env0 "app" "todos" "u1" [("status", Val.vstr "done")]
        (some "own") (some .user) dbTodos
      = (.ok (itemView (withData todoItem
           (mergeData todoItem.data [("status", Val.vstr "done")]))),
         { collections := dbTodos.collections
           items := dbTodos.items.map (fun it =>
             if it.id == "u1" && it.app_id == "app"
             then withData it (mergeData todoItem.data [("status", Val.vstr "done")]) else it) })
    ∧ mergeData [("title", Val.vstr "X"), ("status", Val.vstr "todo")] [("status", Val.vstr "done")]
        = [("title", Val.vstr "X"), ("status", Val.vstr "done")] := by
  have h := claim_C8_theorem env0 "app" "todos" "u1" [("status", Val.vstr "done")]
    (some "own") (some .user) dbTodos todosCol dbTodos rfl rfl
  exact ⟨h.2.2.1 todoItem rfl rfl (Or.inl rfl), h.2.2.2⟩

/-- Witness for C9: a verifier rejecting every token, a request with a
bearer header, and a request with no header. -/
theorem claim_C9_witness :
    (requireAuth verifyNone (some "Bearer abc") = .reject 401 "AUTH_INVALID"
      ∧ parseAuth verifyNone (some "Bearer abc") = .proceed none)
    ∧ requireAuth verifyNone none = .reject 401 "AUTH_REQUIRED" :=
  ⟨(claim_C9_theorem verifyNone (some "Bearer abc")).1 "abc" rfl rfl,
   (claim_C9_theorem verifyNone none).2.1 rfl⟩

/-! ## Cross-collection item addressing (claim C10) -/

/-- Claim C10: getItem, updateItem, deleteItem, bulkDelete and
bulkArchive match the target rows only by item id and tenant id, never
by the collection named in the call — an item of one collection is
read, updated, deleted or archived through any other collection name of
the same tenant (here an admin caller, for whom no ownership filter
applies, and a schemaless resolved collection for the update) — and the
named collection exists afterwards, auto-created if it was absent. -/
theorem claim_C10_theorem (appId cn : String) (u : Option String) (d : Data) (env : JsEnv)
    (db : DB) (i : Item)
    (hu : db.items.filter (fun it => it.id == i.id && it.app_id == appId) = [i]) :
    (getItem appId cn i.id u (some Role.admin) db).1 = .ok (itemView i)
    ∧ (∃ c ∈ (getItem appId cn i.id u (some Role.admin) db).2.collections,
        c.app_id = appId ∧ c.name = cn)
    ∧ ((getOrCreateCollection appId cn db).1.schema = [] →
        (updateItem env appId cn i.id d u (some Role.admin) db).1
          = .ok (itemView (withData i (mergeData i.data d))))
    ∧ (deleteItem appId cn i.id u (some Role.admin) db).2.items
        = db.items.filter (fun it => !(it.id == i.id && it.app_id == appId))
    ∧ i ∉ (bulkDelete appId cn [i.id] db).2.items
    ∧ (bulkArchive appId cn [i.id] db).2.items.filter
        (fun it => it.id == i.id && it.app_id == appId)
      = [{ i with is_archived := true }] := by
  have hmemi : i ∈ db.items.filter (fun it => it.id == i.id && it.app_id == appId) := by
    rw [hu]; simp
  have hpi : (i.id == i.id && i.app_id == appId) = true := (List.mem_filter.mp hmemi).2
  have happ : (i.app_id == appId) = true := by
    cases h1 : (i.id == i.id) <;> cases h2 : (i.app_id == appId) <;> simp_all
  have hcont : (([i.id].contains i.id) : Bool) = true := by simp
  have hpredGet : ∀ S it, getRowPred S appId i.id u (some Role.admin) it
      = (it.id == i.id && it.app_id == appId) := by
    intro S it; simp [getRowPred, isPrivileged]
  have hrows : (getOrCreateCollection appId cn db).2.items.filter
      (getRowPred (settingsOf (getOrCreateCollection appId cn db).1.settings)
        appId i.id u (some Role.admin)) = [i] := by
    rw [getOrCreate_items]
    exact (List.filter_congr (fun a _ => hpredGet _ a)).trans hu
  refine ⟨?_, ?_, ?_, ?_, ?_, ?_⟩
  · unfold getItem
    dsimp only
    rw [hrows]
  · have hdb2 : (getItem appId cn i.id u (some Role.admin) db).2
        = (getOrCreateCollection appId cn db).2 := by
      unfold getItem
      dsimp only
      rw [hrows]
    rw [hdb2]
    exact getOrCreate_collection_exists appId cn db
  · intro hs
    have hgate : ((settingsOf (getOrCreateCollection appId cn db).1.settings).adminWriteOnly
        && !(isAdmin (some Role.admin))) = false := by
      simp [isAdmin]
    have hpredUp : ∀ it, updateFetchPred
        (settingsOf (getOrCreateCollection appId cn db).1.settings)
        appId i.id u (some Role.admin) it
        = (it.id == i.id && it.app_id == appId) := by
      intro it; simp [updateFetchPred, isPrivileged]
    have hhit : (getOrCreateCollection appId cn db).2.items.filter
        (updateFetchPred (settingsOf (getOrCreateCollection appId cn db).1.settings)
          appId i.id u (some Role.admin)) = [i] := by
      rw [getOrCreate_items]
      exact (List.filter_congr (fun a _ => hpredUp a)).trans hu
    have hfull : (getOrCreateCollection appId cn db).2.items.filter
        (fun it => it.id == i.id && it.app_id == appId) = [i] := by
      rw [getOrCreate_items]; exact hu
    rw [updateItem_found env appId cn i.id d u (some Role.admin) db
      (getOrCreateCollection appId cn db).1 (getOrCreateCollection appId cn db).2 i
      rfl hgate hhit hfull (Or.inl hs)]
  · have hpredDel : ∀ it, deleteRowPred
        (settingsOf (getOrCreateCollection appId cn db).1.settings)
        appId i.id u (some Role.admin) it
        = (it.id == i.id && it.app_id == appId) := by
      intro it; simp [deleteRowPred, isPrivileged]
    unfold deleteItem
    dsimp only
    rw [getOrCreate_items]
    exact List.filter_congr (fun a _ => by rw [hpredDel])
  · intro hmem
    unfold bulkDelete at hmem
    dsimp only at hmem
    rw [getOrCreate_items] at hmem
    have h2 := (List.mem_filter.mp hmem).2
    simp [hcont, happ] at h2
  · have hpg2 : ∀ it : Item, ((fun (j : Item) => j.id == i.id && j.app_id == appId)
        (if [i.id].contains it.id && it.app_id == appId
         then { it with is_archived := true } else it))
      = (it.id == i.id && it.app_id == appId) := by
      intro it
      dsimp only
      split <;> rfl
    unfold bulkArchive
    dsimp only
    rw [getOrCreate_items, filter_map_pres _ _ hpg2, hu]
    simp only [List.map_cons, List.map_nil]
    rw [if_pos (show (([i.id].contains i.id && i.app_id == appId) : Bool) = true by
      rw [hcont, happ]; rfl)]

/-- Witness for C10: the item of collection c3 is read, updated, deleted
and bulk-archived through the unrelated (and initially absent)
collection name other, which gets auto-created. -/
theorem claim_C10_witness :
    (getItem "app" "other" "t1" none (some Role.admin) dbPlain).1 = .ok (itemView thingItem)
    ∧ (∃ c ∈ (getItem "app" "other" "t1" none (some Role.admin) dbPlain).2.collections,
        c.app_id = "app" ∧ c.name = "other")
    ∧ (updateItem env0 "app" "other" "t1" [("n", Val.vnum 2)] none (some Role.admin) dbPlain).1
        = .ok (itemView (withData thingItem (mergeData thingItem.data [("n", Val.vnum 2)])))
    ∧ (deleteItem "app" "other" "t1" none (some Role.admin) dbPlain).2.items
        = dbPlain.items.filter (fun it => !(it.id == "t1" && it.app_id == "app"))
    ∧ thingItem ∉ (bulkDelete "app" "other" ["t1"] dbPlain).2.items
    ∧ (bulkArchive "app" "other" ["t1"] dbPlain).2.items.filter
        (fun it => it.id == "t1" && it.app_id == "app")
      = [{ thingItem with is_archived := true }] := by
  have h := claim_C10_theorem "app" "other" none [("n", Val.vnum 2)] env0 dbPlain thingItem rfl
  exact ⟨h.1, h.2.1, h.2.2.1 rfl, h.2.2.2.1, h.2.2.2.2.1, h.2.2.2.2.2⟩

end AppForge
